import Mathlib

/-!
Verification of the lumberjack logging package: a shallow embedding of its
level registry, backend registry, HTTP dispatcher loop, and JSON wire
encoding, with theorems checking the specification's claims against it.
-/

namespace Lumberjack

/-- Embeds Go's `type LogLevel byte`. Values are byte values; only 0..5 are
named enumeration members. -/
abbrev LogLevel := Nat

def INFO : LogLevel := 0
def WARN : LogLevel := 1
def ERROR : LogLevel := 2
def CRITICAL : LogLevel := 3
def FATAL : LogLevel := 4
def DEBUG : LogLevel := 5

/-- Embeds the `logLevelNameToValue` map: string to LogLevel. -/
def logLevelNameToValue (s : String) : Option LogLevel :=
  if s = "INFO" then some INFO
  else if s = "WARN" then some WARN
  else if s = "ERROR" then some ERROR
  else if s = "CRITICAL" then some CRITICAL
  else if s = "FATAL" then some FATAL
  else if s = "DEBUG" then some DEBUG
  else none

/-- Embeds the `logLevelValueToName` map: LogLevel to string. -/
def logLevelValueToName (l : LogLevel) : Option String :=
  if l = INFO then some "INFO"
  else if l = WARN then some "WARN"
  else if l = ERROR then some "ERROR"
  else if l = CRITICAL then some "CRITICAL"
  else if l = FATAL then some "FATAL"
  else if l = DEBUG then some "DEBUG"
  else none

/-- Embeds `LogLevel.String`: the map lookup, or `""` when absent. -/
def LogLevelString (l : LogLevel) : String :=
  (logLevelValueToName l).getD ""

/-- Embeds `validLevel`: `level >= INFO && level <= DEBUG`. -/
def validLevel (level : LogLevel) : Bool :=
  INFO ≤ level && level ≤ DEBUG

def hexDigit (n : Nat) : Char :=
  if n < 10 then Char.ofNat (48 + n) else Char.ofNat (87 + n)

/-- Embeds encoding/json's escaping of one character of a Go string
(standard escapes, default HTML escaping of angle brackets and ampersand,
`\u00XX` for remaining control characters). -/
def escapeJSONChar (c : Char) : String :=
  if c = '"' then "\\\""
  else if c = '\\' then "\\\\"
  else if c = '\n' then "\\n"
  else if c = '\r' then "\\r"
  else if c = '\t' then "\\t"
  else if c = '<' then "\\u003c"
  else if c = '>' then "\\u003e"
  else if c = '&' then "\\u0026"
  else if c.toNat < 32 then
    "\\u00" ++ String.mk [hexDigit (c.toNat / 16), hexDigit (c.toNat % 16)]
  else String.singleton c

/-- Embeds encoding/json's serialization of a Go string value. -/
def encodeJSONString (s : String) : String :=
  "\"" ++ String.join (s.data.map escapeJSONChar) ++ "\""

/-- Embeds encoding/json's unescaping of the characters between the quotes
of a JSON string (simple escapes; `\uXXXX` sequences, which no enumeration
name contains, are not modelled). An unescaped quote means trailing
garbage and fails. -/
def unescapeChars : List Char → Option (List Char)
  | [] => some []
  | '\\' :: c :: rest =>
      if c = '"' then (unescapeChars rest).map (fun l => '"' :: l)
      else if c = '\\' then (unescapeChars rest).map (fun l => '\\' :: l)
      else if c = '/' then (unescapeChars rest).map (fun l => '/' :: l)
      else if c = 'n' then (unescapeChars rest).map (fun l => '\n' :: l)
      else if c = 'r' then (unescapeChars rest).map (fun l => '\r' :: l)
      else if c = 't' then (unescapeChars rest).map (fun l => '\t' :: l)
      else if c = 'b' then (unescapeChars rest).map (fun l => Char.ofNat 8 :: l)
      else if c = 'f' then (unescapeChars rest).map (fun l => Char.ofNat 12 :: l)
      else none
  | ['\\'] => none
  | c :: rest =>
      if c = '"' then none
      else (unescapeChars rest).map (fun l => c :: l)

/-- Embeds encoding/json's parsing of a JSON document that must be a single
string value: leading quote, escaped body, trailing quote. -/
def decodeJSONString (s : String) : Option String :=
  match s.data with
  | '"' :: rest =>
      match rest.getLast? with
      | some '"' => (unescapeChars rest.dropLast).map String.mk
      | _ => none
  | _ => none

/-- Embeds `LogLevel.MarshalJSON`: look the value up in
`logLevelValueToName`, failing for a value outside the enumeration, and
JSON-encode the name. -/
def LogLevel.MarshalJSON (l : LogLevel) : Except String String :=
  match logLevelValueToName l with
  | some s => .ok (encodeJSONString s)
  | none => .error ("invalid LogLevel: " ++ toString l)

/-- Embeds `LogLevel.UnmarshalJSON`: parse the payload as a JSON string,
failing otherwise, then look the name up in `logLevelNameToValue`, failing
for an unknown name. -/
def LogLevel.UnmarshalJSON (data : String) : Except String LogLevel :=
  match decodeJSONString data with
  | none => .error ("LogLevel should be a string, got " ++ data)
  | some s =>
      match logLevelNameToValue s with
      | some v => .ok v
      | none => .error ("invalid LogLevel " ++ s)

/-- Embeds the `LogEntry` struct. -/
structure LogEntry where
  Level : LogLevel
  Caller : String
  Path : String
  File : String
  Line : Int
  Message : String
deriving DecidableEq

/-- Embeds encoding/json's serialization of one `LogEntry` struct value:
the fields in declaration order under their json tags, the level through
`LogLevel.MarshalJSON`. -/
def marshalLogEntry (e : LogEntry) : Except String String :=
  match LogLevel.MarshalJSON e.Level with
  | .error msg => .error msg
  | .ok lvl =>
      .ok ("\x7b\"level\":" ++ lvl
        ++ ",\"caller\":" ++ encodeJSONString e.Caller
        ++ ",\"path\":" ++ encodeJSONString e.Path
        ++ ",\"file\":" ++ encodeJSONString e.File
        ++ ",\"line\":" ++ toString e.Line
        ++ ",\"message\":" ++ encodeJSONString e.Message
        ++ "\x7d")

/-- Embeds encoding/json's serialization of the `logbuffer` struct: one
object with the single field `logentries` holding the array of entries. -/
def marshalLogbuffer (entries : List LogEntry) : Except String String :=
  match entries.mapM marshalLogEntry with
  | .error msg => .error msg
  | .ok parts =>
      let comma := ","
      .ok ("\x7b\"logentries\":[" ++ String.intercalate comma parts ++ "]\x7d")

/-- One wake-up of the `select` in `startClient`: a record arrived on
`logchan`, the ticker fired, or the `stop` channel became readable. -/
inductive ClientEvent where
  | record (e : LogEntry)
  | tick
  | stop
deriving DecidableEq

/-- Embeds one iteration of the `for`/`select` loop of `startClient` over
the buffer state. Returns the new buffer and the batch handed to `doSend`
this iteration, if any. The `record` arm appends, skips the send while
`bufsize > 0` and the buffer is still short, and otherwise sends and
clears. The `tick` arm sends and clears only a non-empty buffer. The
`stop` arm runs `break`, which in Go exits only the `select`, not the
`for` loop, so it changes nothing. -/
def startClientStep (bufsize : Nat) (buffer : List LogEntry) :
    ClientEvent → List LogEntry × Option (List LogEntry)
  | .record e =>
      let buffer2 := buffer ++ [e]
      if bufsize > 0 ∧ buffer2.length < bufsize then (buffer2, none)
      else ([], some buffer2)
  | .tick =>
      if buffer.length > 0 then ([], some buffer) else (buffer, none)
  | .stop => (buffer, none)

/-- Runs the `startClient` loop over a finite sequence of wake-ups,
collecting the batches handed to `doSend` in order. -/
def startClientRun (bufsize : Nat) (buffer : List LogEntry) :
    List ClientEvent → List LogEntry × List (List LogEntry)
  | [] => (buffer, [])
  | ev :: rest =>
      match startClientStep bufsize buffer ev with
      | (buf2, none) => startClientRun bufsize buf2 rest
      | (buf2, some batch) =>
          let r := startClientRun bufsize buf2 rest
          (r.1, batch :: r.2)

/-- Embeds the `PrintBackend` struct. -/
structure PrintBackend where
  Verbosity : LogLevel
deriving DecidableEq

/-- Embeds the `Logger` struct: the enabled-levels set (Go map with `struct{}`
values, modelled as a duplicate-free list of keys) and the name-to-backend
map (modelled as an association list); `β` stands for the `Backend`
interface. -/
structure Logger (β : Type) where
  logLevels : List LogLevel
  backends : List (String × β)
deriving DecidableEq

/-- Embeds `NewLogger`: empty level set, empty backend map. -/
def NewLogger (β : Type) : Logger β :=
  { logLevels := [], backends := [] }

/-- Embeds `NewLoggerWithDefaults`: the default levels (all but DEBUG) and a
print backend with ERROR verbosity under the name "print". -/
def NewLoggerWithDefaults : Logger PrintBackend :=
  { logLevels := [INFO, WARN, ERROR, CRITICAL, FATAL]
    backends := [("print", { Verbosity := ERROR })] }

/-- Embeds `Logger.levelSet`: membership of the level in the enabled set. -/
def levelSet (l : Logger β) (level : LogLevel) : Bool :=
  l.logLevels.contains level

/-- Embeds `Logger.backendAdded`: presence of the name in the backend map. -/
def backendAdded (l : Logger β) (name : String) : Bool :=
  (l.backends.lookup name).isSome

/-- Embeds `Logger.AddLevel`: insert only a valid level that is not yet set,
otherwise leave the receiver alone and return the error. The Go method
mutates the receiver and returns `error`; here it returns the new state and
the optional error message. -/
def AddLevel (l : Logger β) (level : LogLevel) : Logger β × Option String :=
  if !(levelSet l level) && validLevel level then
    ({ l with logLevels := l.logLevels ++ [level] }, none)
  else
    (l, some ("LogLevel already set: " ++ LogLevelString level))

/-- Embeds `Logger.RemoveLevel`: delete a level that is set, otherwise leave
the receiver alone and return the error. -/
def RemoveLevel (l : Logger β) (level : LogLevel) : Logger β × Option String :=
  if levelSet l level then
    ({ l with logLevels := l.logLevels.filter (fun x => x != level) }, none)
  else
    (l, some ("LogLevel not set: " ++ LogLevelString level))

/-- Embeds `Logger.AddBackend`: insert under an unused name, otherwise leave
the receiver alone and return the error. -/
def AddBackend (l : Logger β) (name : String) (backend : β) :
    Logger β × Option String :=
  if !(backendAdded l name) then
    ({ l with backends := l.backends ++ [(name, backend)] }, none)
  else
    (l, some ("Backend with that name already exists: " ++ name))

/-- Embeds `Logger.GetBackend`: look the name up in the backend map; an
absent name is an error. The map is not modified. -/
def GetBackend (l : Logger β) (name : String) : Option β × Option String :=
  match l.backends.lookup name with
  | some b => (some b, none)
  | none => (none, some ("Backend with that name does not exist: " ++ name))

/-- Embeds `Logger.RemoveBackend`: delete a registered name, otherwise leave
the receiver alone and return the error. The `backend` argument is unused in
the source as well. -/
def RemoveBackend (l : Logger β) (name : String) (backend : β) :
    Logger β × Option String :=
  if backendAdded l name then
    ({ l with backends := l.backends.filter (fun p => p.1 != name) }, none)
  else
    (l, some ("Backend with that name does not exist: " ++ name))

/-- Embeds `Logger.sendToBackends`: every backend in the map receives the
entry through its `Log` method. -/
def sendToBackends (l : Logger β) (entry : LogEntry) : List (β × LogEntry) :=
  l.backends.map (fun p => (p.2, entry))

/-- Embeds `Logger.Info`/`Logger.Infof`: the level gate, then `Logger.log`.
The record built by `buildLogEntry` (call-site introspection) is taken as a
parameter; the result is the list of deliveries to sinks. -/
def InfoCall (l : Logger β) (entry : LogEntry) : List (β × LogEntry) :=
  if levelSet l INFO then sendToBackends l entry else []

/-- Embeds `Logger.Warn`/`Logger.Warnf`. -/
def WarnCall (l : Logger β) (entry : LogEntry) : List (β × LogEntry) :=
  if levelSet l WARN then sendToBackends l entry else []

/-- Embeds `Logger.Error`/`Logger.Errorf`. -/
def ErrorCall (l : Logger β) (entry : LogEntry) : List (β × LogEntry) :=
  if levelSet l ERROR then sendToBackends l entry else []

/-- Embeds `Logger.Critical`/`Logger.Criticalf`. -/
def CriticalCall (l : Logger β) (entry : LogEntry) : List (β × LogEntry) :=
  if levelSet l CRITICAL then sendToBackends l entry else []

/-- Embeds `Logger.Debug`/`Logger.Debugf`. -/
def DebugCall (l : Logger β) (entry : LogEntry) : List (β × LogEntry) :=
  if levelSet l DEBUG then sendToBackends l entry else []

/-- Embeds `Logger.Fatal`/`Logger.Fatalf`: the source calls `l.log(FATAL, …)`
with no `levelSet` check before `os.Exit(1)`. -/
def FatalCall (l : Logger β) (entry : LogEntry) : List (β × LogEntry) :=
  sendToBackends l entry

/-- A registry operation on a Logger, for stating reachability. -/
inductive LoggerOp (β : Type) where
  | addLevel (level : LogLevel)
  | removeLevel (level : LogLevel)
  | addBackend (name : String) (b : β)
  | removeBackend (name : String) (b : β)

/-- The state after one registry operation (the returned error, if any, is
dropped; the receiver is what persists). -/
def applyOp (l : Logger β) : LoggerOp β → Logger β
  | .addLevel lv => (AddLevel l lv).1
  | .removeLevel lv => (RemoveLevel l lv).1
  | .addBackend n b => (AddBackend l n b).1
  | .removeBackend n b => (RemoveBackend l n b).1

/-- The state after a sequence of registry operations. -/
def runOps (l : Logger β) (ops : List (LoggerOp β)) : Logger β :=
  ops.foldl applyOp l

/-- The first record of the spec's end-to-end example. -/
def entryBoom : LogEntry :=
  { Level := ERROR, Caller := "main", Path := "/x", File := "m.go"
    Line := 10, Message := "boom" }

/-- The second record of the spec's end-to-end example. -/
def entryOk : LogEntry :=
  { Level := INFO, Caller := "main", Path := "/x", File := "m.go"
    Line := 11, Message := "ok" }

/-- A logger with no enabled levels and one print backend. -/
def loggerNoLevels : Logger PrintBackend :=
  { logLevels := [], backends := [("print", { Verbosity := ERROR })] }

/-- Claim C1: the claim says that once the stop signal has been observed by
the background task, no further delivery attempts are made. In the source,
the `break` in `case <-stop:` exits only the `select`, not the `for` loop,
so the loop keeps running: here, with `bufsize = 0`, the stop case is
observed and a record submitted afterwards is still delivered. -/
theorem delivery_after_stop_observed :
    startClientRun 0 [] [ClientEvent.stop, ClientEvent.record entryBoom]
      = ([], [[entryBoom]]) := rfl

/-- Claim C2: the claim says a record at severity S reaches the sinks only
if S is in the enabled-levels set. `Logger.Fatal`/`Logger.Fatalf` call
`l.log(FATAL, …)` without the `levelSet` gate every other leveled method
has: on a logger whose enabled set is empty, a FATAL record still reaches
the backend while an ERROR record is gated off. -/
theorem fatal_bypasses_level_gate :
    levelSet loggerNoLevels FATAL = false ∧
    FatalCall loggerNoLevels entryBoom = [({ Verbosity := ERROR }, entryBoom)] ∧
    ErrorCall loggerNoLevels entryBoom = [] :=
  ⟨rfl, rfl, rfl⟩

/-- Claim C3: with threshold 2 and no timer tick during the run, submitting
two records triggers exactly one delivery containing both records in
submission order, and the batch is reset to empty afterwards. -/
theorem flush_by_size_two (e1 e2 : LogEntry) :
    startClientRun 2 [] [ClientEvent.record e1, ClientEvent.record e2]
      = ([], [[e1, e2]]) := rfl

/-- Claim C7: the two example records with threshold 2 are sent as one
delivery call, and serializing that batch yields exactly the JSON object
with the single `logentries` field whose record objects carry the keys
`level` (uppercase severity name), `caller`, `path`, `file`, `line`
(integer) and `message`, in that order. -/
theorem end_to_end_payload :
    startClientRun 2 [] [ClientEvent.record entryBoom, ClientEvent.record entryOk]
        = ([], [[entryBoom, entryOk]]) ∧
    marshalLogbuffer [entryBoom, entryOk]
        = .ok "\x7b\"logentries\":[\x7b\"level\":\"ERROR\",\"caller\":\"main\",\"path\":\"/x\",\"file\":\"m.go\",\"line\":10,\"message\":\"boom\"\x7d,\x7b\"level\":\"INFO\",\"caller\":\"main\",\"path\":\"/x\",\"file\":\"m.go\",\"line\":11,\"message\":\"ok\"\x7d]\x7d" :=
  ⟨rfl, rfl⟩

/-- Claim C4: with threshold 0, every submitted record produces its own
single-element delivery in the step of its arrival, through the same loop
and send path as buffered mode, and the batch stays empty. -/
theorem immediate_mode_singletons (entries : List LogEntry) :
    startClientRun 0 [] (entries.map ClientEvent.record)
      = ([], entries.map (fun e => [e])) := by
  induction entries with
  | nil => rfl
  | cons e rest ih =>
      show (let r := startClientRun 0 [] (rest.map ClientEvent.record)
            (r.1, [e] :: r.2))
          = ([], [e] :: rest.map (fun e => [e]))
      rw [ih]

/-- A batch handed to `doSend` by one loop iteration is never empty: the
record arm sends the buffer extended with the new record, and the tick arm
sends only a buffer of positive length. -/
lemma step_batch_nonempty (bufsize : Nat) (buffer : List LogEntry)
    (ev : ClientEvent) (buf2 batch : List LogEntry)
    (h : startClientStep bufsize buffer ev = (buf2, some batch)) :
    batch ≠ [] := by
  cases ev with
  | record e =>
      simp only [startClientStep] at h
      split at h
      · simp at h
      · simp only [Prod.mk.injEq, Option.some.injEq] at h
        rw [← h.2]
        simp
  | tick =>
      simp only [startClientStep] at h
      split at h
      next hlen =>
        simp only [Prod.mk.injEq, Option.some.injEq] at h
        rw [← h.2]
        exact List.ne_nil_of_length_pos hlen
      next => simp at h
  | stop => simp [startClientStep] at h

/-- Every batch a run hands to `doSend` is non-empty, from any starting
buffer. -/
lemma run_batches_nonempty (bufsize : Nat) (events : List ClientEvent) :
    ∀ (buffer batch : List LogEntry),
      batch ∈ (startClientRun bufsize buffer events).2 → batch ≠ [] := by
  induction events with
  | nil =>
      intro buffer batch h
      simp [startClientRun] at h
  | cons ev rest ih =>
      intro buffer batch h
      unfold startClientRun at h
      cases hstep : startClientStep bufsize buffer ev with
      | mk buf2 od =>
          rw [hstep] at h
          cases od with
          | none => exact ih buf2 batch h
          | some b =>
              simp only [List.mem_cons] at h
              cases h with
              | inl hb => exact hb ▸ step_batch_nonempty bufsize buffer ev buf2 b hstep
              | inr hm => exact ih buf2 batch hm

/-- Claim C5: on a timer tick the loop flushes (delivers the current batch
and resets it to empty) exactly when the batch is non-empty, an empty batch
on a tick is a no-op, and consequently no delivery attempt in any run
carries an empty batch. -/
theorem tick_flush_iff_nonempty :
    (∀ (bufsize : Nat) (buffer : List LogEntry), buffer ≠ [] →
        startClientStep bufsize buffer ClientEvent.tick = ([], some buffer)) ∧
    (∀ (bufsize : Nat),
        startClientStep bufsize [] ClientEvent.tick = ([], none)) ∧
    (∀ (bufsize : Nat) (events : List ClientEvent)
        (buffer batch : List LogEntry),
        batch ∈ (startClientRun bufsize buffer events).2 → batch ≠ []) := by
  refine ⟨?_, ?_, ?_⟩
  · intro bufsize buffer h
    simp [startClientStep, List.length_pos, h]
  · intro bufsize
    rfl
  · intro bufsize events buffer batch h
    exact run_batches_nonempty bufsize events buffer batch h

/-- Witness for C5 at concrete inputs: a tick on the one-record buffer
flushes it, and the batch delivered by a concrete run is non-empty. -/
theorem tick_flush_iff_nonempty_witness :
    startClientStep 100 [entryOk] ClientEvent.tick = ([], some [entryOk]) ∧
    [entryOk] ≠ ([] : List LogEntry) :=
  ⟨tick_flush_iff_nonempty.1 100 [entryOk] (by simp),
   tick_flush_iff_nonempty.2.2 100 [ClientEvent.tick] [entryOk] [entryOk] (by simp [startClientRun, startClientStep])⟩

/-- The two name maps are mutually inverse in the decode-then-encode
direction: a successful name lookup returns a member whose canonical name
is that very string. -/
lemma nameToValue_valueToName (s : String) (l : LogLevel)
    (h : logLevelNameToValue s = some l) :
    logLevelValueToName l = some s := by
  unfold logLevelNameToValue at h
  split_ifs at h <;>
    first
      | exact Option.noConfusion h
      | (injection h with h2; subst h2; subst_vars; decide)

/-- Claim C6: every enumeration member marshals to its canonical name and
unmarshalling that payload returns the member; and unmarshalling succeeds
only on payloads that are the canonical JSON-string name of the returned
member, so any other string is a decode error, never a default. -/
theorem loglevel_roundtrip :
    (∀ l : LogLevel, validLevel l = true →
        ∃ b, LogLevel.MarshalJSON l = .ok b ∧
          LogLevel.UnmarshalJSON b = .ok l) ∧
    (∀ (data : String) (l : LogLevel),
        LogLevel.UnmarshalJSON data = .ok l →
        ∃ s, decodeJSONString data = some s ∧
          logLevelValueToName l = some s) := by
  constructor
  · intro l h
    have hle : l ≤ 5 := by
      simpa [validLevel, INFO, DEBUG] using h
    interval_cases l
    · exact ⟨"\"INFO\"", rfl, rfl⟩
    · exact ⟨"\"WARN\"", rfl, rfl⟩
    · exact ⟨"\"ERROR\"", rfl, rfl⟩
    · exact ⟨"\"CRITICAL\"", rfl, rfl⟩
    · exact ⟨"\"FATAL\"", rfl, rfl⟩
    · exact ⟨"\"DEBUG\"", rfl, rfl⟩
  · intro data l h
    cases hd : decodeJSONString data with
    | none =>
        unfold LogLevel.UnmarshalJSON at h
        rw [hd] at h
        exact absurd h (by simp)
    | some s =>
        have h2 : (match logLevelNameToValue s with
            | some v => Except.ok v
            | none => Except.error ("invalid LogLevel " ++ s))
              = Except.ok l := by
          unfold LogLevel.UnmarshalJSON at h
          rw [hd] at h
          exact h
        cases hv : logLevelNameToValue s with
        | none =>
            rw [hv] at h2
            exact absurd h2 (by simp)
        | some v =>
            rw [hv] at h2
            have hvl : v = l := by
              simpa using h2
            exact ⟨s, rfl, nameToValue_valueToName s l (hvl ▸ hv)⟩

/-- Witness for C6 at concrete inputs: ERROR round-trips through its JSON
name, and a payload holding an unknown name decodes to some string whose
member lookup the theorem forces to be canonical (shown here on the
successful member DEBUG). -/
theorem loglevel_roundtrip_witness :
    (∃ b, LogLevel.MarshalJSON ERROR = .ok b ∧
        LogLevel.UnmarshalJSON b = .ok ERROR) ∧
    (∃ s, decodeJSONString "\"DEBUG\"" = some s ∧
        logLevelValueToName DEBUG = some s) :=
  ⟨loglevel_roundtrip.1 ERROR (by decide),
   loglevel_roundtrip.2 "\"DEBUG\"" DEBUG rfl⟩

/-- Claim C8: enabling a level that is already enabled returns an error and
leaves the logger unchanged, and disabling a level that is not enabled
returns an error and leaves the logger unchanged. -/
theorem level_registry_error_semantics (β : Type) (l : Logger β)
    (level : LogLevel) :
    (levelSet l level = true →
        (AddLevel l level).1 = l ∧ ((AddLevel l level).2).isSome = true) ∧
    (levelSet l level = false →
        (RemoveLevel l level).1 = l ∧ ((RemoveLevel l level).2).isSome = true) := by
  constructor
  · intro h
    simp [AddLevel, h]
  · intro h
    simp [RemoveLevel, h]

/-- A logger with only INFO enabled and no backends. -/
def loggerInfoOnly : Logger Unit :=
  { logLevels := [INFO], backends := [] }

/-- Witness for C8 at concrete inputs: re-adding the enabled INFO errors
without change, and removing the never-enabled DEBUG errors without
change. -/
theorem level_registry_error_semantics_witness :
    ((AddLevel loggerInfoOnly INFO).1 = loggerInfoOnly ∧
        ((AddLevel loggerInfoOnly INFO).2).isSome = true) ∧
    ((RemoveLevel loggerInfoOnly DEBUG).1 = loggerInfoOnly ∧
        ((RemoveLevel loggerInfoOnly DEBUG).2).isSome = true) :=
  ⟨(level_registry_error_semantics Unit loggerInfoOnly INFO).1 (by decide),
   (level_registry_error_semantics Unit loggerInfoOnly DEBUG).2 (by decide)⟩

/-- Claim C9: registering a backend under a taken name returns an error and
retains the first registration unchanged, and looking up or removing an
unregistered name returns an error and leaves the backend map unchanged
(the lookup does not modify the logger at all in the source). -/
theorem backend_registry_error_semantics (β : Type) (l : Logger β)
    (name : String) (b : β) :
    (backendAdded l name = true →
        (AddBackend l name b).1 = l ∧
        ((AddBackend l name b).2).isSome = true ∧
        ((AddBackend l name b).1.backends.lookup name = l.backends.lookup name)) ∧
    (backendAdded l name = false →
        (GetBackend l name).1 = none ∧
        ((GetBackend l name).2).isSome = true ∧
        (RemoveBackend l name b).1 = l ∧
        ((RemoveBackend l name b).2).isSome = true) := by
  constructor
  · intro h
    simp [AddBackend, h]
  · intro h
    have hl : l.backends.lookup name = none := by
      unfold backendAdded at h
      exact Option.eq_none_of_isNone (by simpa using h)
    refine ⟨?_, ?_, ?_, ?_⟩
    · simp [GetBackend, hl]
    · simp [GetBackend, hl]
    · simp [RemoveBackend, backendAdded, hl]
    · simp [RemoveBackend, backendAdded, hl]

/-- A logger with one registered print backend. -/
def loggerOnePrint : Logger PrintBackend :=
  { logLevels := [], backends := [("print", { Verbosity := ERROR })] }

/-- Witness for C9 at concrete inputs: re-registering the taken name
"print" errors and retains the first registration, and looking up or
removing the unregistered name "http" errors without change. -/
theorem backend_registry_error_semantics_witness :
    ((AddBackend loggerOnePrint "print" { Verbosity := DEBUG }).1 = loggerOnePrint ∧
        ((AddBackend loggerOnePrint "print" { Verbosity := DEBUG }).2).isSome = true ∧
        ((AddBackend loggerOnePrint "print" { Verbosity := DEBUG }).1.backends.lookup "print"
          = loggerOnePrint.backends.lookup "print")) ∧
    ((GetBackend loggerOnePrint "http").1 = none ∧
        ((GetBackend loggerOnePrint "http").2).isSome = true ∧
        (RemoveBackend loggerOnePrint "http" { Verbosity := DEBUG }).1 = loggerOnePrint ∧
        ((RemoveBackend loggerOnePrint "http" { Verbosity := DEBUG }).2).isSome = true) :=
  ⟨(backend_registry_error_semantics PrintBackend loggerOnePrint "print"
      { Verbosity := DEBUG }).1 (by decide),
   (backend_registry_error_semantics PrintBackend loggerOnePrint "http"
      { Verbosity := DEBUG }).2 (by decide)⟩

/-- One registry operation keeps every enabled level a valid enumeration
member: `AddLevel` inserts only levels passing `validLevel`, `RemoveLevel`
only deletes, and the backend operations do not touch the level set. -/
lemma applyOp_levels_valid (l : Logger β) (op : LoggerOp β)
    (h : ∀ lv ∈ l.logLevels, validLevel lv = true) :
    ∀ lv ∈ (applyOp l op).logLevels, validLevel lv = true := by
  cases op with
  | addLevel level =>
      intro lv hm
      simp only [applyOp, AddLevel] at hm
      split at hm
      next hc =>
        simp only at hm
        rcases List.mem_append.mp hm with hmem | hmem
        · exact h lv hmem
        · have : lv = level := by simpa using hmem
          subst this
          exact (Bool.and_eq_true _ _ |>.mp hc).2
      next => exact h lv hm
  | removeLevel level =>
      intro lv hm
      simp only [applyOp, RemoveLevel] at hm
      split at hm
      · exact h lv (List.mem_of_mem_filter hm)
      · exact h lv hm
  | addBackend n b =>
      intro lv hm
      simp only [applyOp, AddBackend] at hm
      split at hm
      · exact h lv hm
      · exact h lv hm
  | removeBackend n b =>
      intro lv hm
      simp only [applyOp, RemoveBackend] at hm
      split at hm
      · exact h lv hm
      · exact h lv hm

/-- The level-validity invariant is preserved along any sequence of
registry operations. -/
lemma runOps_levels_valid (ops : List (LoggerOp β)) :
    ∀ (l : Logger β), (∀ lv ∈ l.logLevels, validLevel lv = true) →
      ∀ lv ∈ (runOps l ops).logLevels, validLevel lv = true := by
  induction ops with
  | nil => intro l h; exact h
  | cons op rest ih =>
      intro l h
      exact ih (applyOp l op) (applyOp_levels_valid l op h)

/-- Claim C10: `AddLevel` with a level outside the enumeration returns an
error and leaves the logger unchanged, so every logger state reachable from
`NewLogger` by registry operations has an enabled set containing only valid
severities. -/
theorem enabled_levels_always_valid :
    (∀ (l : Logger Unit) (level : LogLevel), validLevel level = false →
        (AddLevel l level).1 = l ∧ ((AddLevel l level).2).isSome = true) ∧
    (∀ (ops : List (LoggerOp Unit)) (lv : LogLevel),
        lv ∈ (runOps (NewLogger Unit) ops).logLevels →
        validLevel lv = true) := by
  constructor
  · intro l level h
    simp [AddLevel, h]
  · intro ops lv hm
    exact runOps_levels_valid ops (NewLogger Unit) (by simp [NewLogger]) lv hm

/-- Witness for C10 at concrete inputs: adding the out-of-range level 9 to
the fresh logger errors without change, and INFO, reached by adding it,
is valid. -/
theorem enabled_levels_always_valid_witness :
    ((AddLevel (NewLogger Unit) 9).1 = NewLogger Unit ∧
        ((AddLevel (NewLogger Unit) 9).2).isSome = true) ∧
    validLevel INFO = true :=
  ⟨enabled_levels_always_valid.1 (NewLogger Unit) 9 (by decide),
   enabled_levels_always_valid.2 [LoggerOp.addLevel INFO] INFO (by decide)⟩

end Lumberjack
